import Mathlib

/-!
# RaceCarGO: race formation and outcome engine

A shallow embedding of `main.go`: the two in-memory maps (`drivers`, `races`),
the matcher `createRaceWithDrivers`, the helper `abs`, the simulator
`simulateRace`, and the two mutating handlers `createDriver` and `createRace`.

Modelling conventions.

* A Go `map[int]V` is an association list `GoMap V` of key/value pairs.  Reading a
  key returns the first matching entry or the zero value, writing replaces the
  entry of an existing key or adds a new entry, `len` counts entries.  A
  well-formed map has pairwise distinct keys (`GoMap.WF`); the stores reachable
  from the empty stores are well-formed by construction.
* `for id, driver := range drivers` visits every entry exactly once in an order
  Go leaves unspecified: the visiting order is an explicit argument `scan`, a
  permutation of the entries of the map.
* Go `int` is a 64-bit two's complement integer.  Horsepower arithmetic is done
  on `Int` with explicit wrap-around (`wrap64`).
* `rand.Intn` is modelled by an explicit raw random value `rnd`, reduced modulo
  the bound; it panics on a non-positive bound.
* The HTTP plumbing is reduced to the decoded request body (or the decoding
  error) and a `Response` value.
-/

namespace RaceCarGO

/-! ## Data model -/

/-- The `Race` struct of `main.go` (it has no identifier field). -/
structure Race where
  Label : String
  Winner : Option String
  DriverIds : List Int
deriving DecidableEq, Repr

/-- The `Driver` struct of `main.go`. -/
structure Driver where
  ID : Int
  Name : String
  CarType : String
  HorsePower : Int
  RaceId : Option Int
deriving DecidableEq, Repr

/-- Go zero value `Race{}`. -/
def Race.zero : Race := ⟨"", none, []⟩

/-- Go zero value `Driver{}`. -/
def Driver.zero : Driver := ⟨0, "", "", 0, none⟩

/-! ## Go maps -/

/-- A Go `map[int]V` as an association list. -/
abbrev GoMap (V : Type) := List (Int × V)

namespace GoMap

variable {V : Type}

/-- The keys of the map. -/
def keys (m : GoMap V) : List Int := m.map Prod.fst

/-- Well-formed maps hold every key at most once. -/
def WF (m : GoMap V) : Prop := (keys m).Nodup

instance (m : GoMap V) : Decidable (WF m) := inferInstanceAs (Decidable (keys m).Nodup)

/-- The comma-ok read `v, ok := m[k]`. -/
def get? (m : GoMap V) (k : Int) : Option V := List.lookup k m

/-- The plain read `m[k]`, which yields the zero value for an absent key. -/
def get (zero : V) (m : GoMap V) (k : Int) : V := (get? m k).getD zero

/-- The builtin `len(m)`. -/
def len (m : GoMap V) : Nat := m.length

/-- The assignment `m[k] = v`. -/
def set : GoMap V → Int → V → GoMap V
  | [], k, v => [(k, v)]
  | (k', v') :: rest, k, v => if k' = k then (k, v) :: rest else (k', v') :: set rest k v

end GoMap

/-! ## 64-bit integer arithmetic -/

/-- Smallest value of a 64-bit Go `int`. -/
def minInt64 : Int := -9223372036854775808

/-- Largest value of a 64-bit Go `int`. -/
def maxInt64 : Int := 9223372036854775807

/-- Reduction of a mathematical integer to the 64-bit two's complement range. -/
def wrap64 (x : Int) : Int := (x + 9223372036854775808) % 18446744073709551616 - 9223372036854775808

/-- Go `a - b` on `int`. -/
def sub64 (a b : Int) : Int := wrap64 (a - b)

/-- Go unary `-x` on `int`. -/
def neg64 (x : Int) : Int := wrap64 (-x)

/-- The function `abs` of `main.go`. -/
def abs (x : Int) : Int :=
  if x < 0 then neg64 x else x

/-! ## Compatibility matcher -/

/-- One iteration of the `range` loop of `createRaceWithDrivers`: `e` is the visited
entry `(id, driver)` and `selectedDrivers` the slice built so far. -/
def selectStep (drivers : GoMap Driver) (carType : String) (selectedDrivers : List Int)
    (e : Int × Driver) : List Int :=
  if e.2.CarType = carType then
    match selectedDrivers with
    | [] => selectedDrivers ++ [e.1]
    | first :: _ =>
      if abs (sub64 (GoMap.get Driver.zero drivers first).HorsePower e.2.HorsePower) ≤ 50 then
        selectedDrivers ++ [e.1]
      else selectedDrivers
  else selectedDrivers

/-- The whole `range` loop of `createRaceWithDrivers`, visiting the entries in the order `scan`. -/
def selectLoop (drivers : GoMap Driver) (carType : String) (scan : List (Int × Driver)) : List Int :=
  scan.foldl (selectStep drivers carType) []

/-- The error text of `createRaceWithDrivers`. -/
def insufficientDrivers : String :=
  "not enough drivers with the same car type and similar horsepower"

/-- The function `createRaceWithDrivers` of `main.go`; the result pair is Go's `(Race, error)`,
with `none` for a nil error. -/
def createRaceWithDrivers (drivers : GoMap Driver) (scan : List (Int × Driver))
    (carType : String) : Race × Option String :=
  let selectedDrivers := selectLoop drivers carType scan
  if selectedDrivers.length < 2 then
    (Race.zero, some insufficientDrivers)
  else
    (⟨carType, none, selectedDrivers⟩, none)

/-! ## Outcome simulator -/

/-- The call `rand.Intn(n)`: it panics (`none`) when `n ≤ 0`, otherwise it yields an index
below `n`; `rnd` is the raw value of the random source. -/
def Intn (rnd : Nat) (n : Nat) : Option Nat :=
  if n = 0 then none else some (rnd % n)

/-- The function `simulateRace` of `main.go`; `none` stands for a run-time panic (a
non-positive bound passed to `rand.Intn` or an index out of range). -/
def simulateRace (race : Race) (drivers : GoMap Driver) (rnd : Nat) : Option String :=
  match Intn rnd race.DriverIds.length with
  | none => none
  | some winnerIndex =>
    match race.DriverIds[winnerIndex]? with
    | none => none
    | some winnerId => some (GoMap.get Driver.zero drivers winnerId).Name

/-! ## Handlers -/

/-- The two package-level maps. -/
structure Store where
  races : GoMap Race
  drivers : GoMap Driver
deriving DecidableEq, Repr

/-- The stores at program start. -/
def Store.empty : Store := ⟨[], []⟩

/-- What a handler sends back: a JSON body with status 200, an `http.Error` with its
message and status code, or nothing because the handler panicked. -/
inductive Response (α : Type) where
  | ok (body : α)
  | error (msg : String) (code : Nat)
  | panicked
deriving DecidableEq, Repr

/-- The handler `createDriver`; `body` is the outcome of decoding the request body. -/
def createDriver (st : Store) (body : Except String Driver) : Store × Response Driver :=
  match body with
  | .error err => (st, .error err 400)
  | .ok driver =>
    if driver.ID = 0 then
      (st, .error "ID is required" 400)
    else
      match GoMap.get? st.drivers driver.ID with
      | some _ => (st, .error "Driver already exists" 409)
      | none => (⟨st.races, GoMap.set st.drivers driver.ID driver⟩, .ok driver)

/-- The handler `createRace`; `body` is the outcome of decoding the request body, `scan` the
order in which the driver map is ranged over and `rnd` the raw random value. -/
def createRace (st : Store) (body : Except String Race) (scan : List (Int × Driver))
    (rnd : Nat) : Store × Response Race :=
  match body with
  | .error err => (st, .error err 400)
  | .ok decoded =>
    match createRaceWithDrivers st.drivers scan decoded.Label with
    | (_, some err) => (st, .error err 400)
    | (race, none) =>
      match simulateRace race st.drivers rnd with
      | none => (st, .panicked)
      | some winner =>
        let race : Race := ⟨race.Label, some winner, race.DriverIds⟩
        let id : Int := (GoMap.len st.races : Int) + 1
        (⟨GoMap.set st.races id race, st.drivers⟩, .ok race)

/-! ## Specification-side notions for the matcher -/

/-- The reference entry: the first entry in scan order whose driver has the requested car type. -/
def firstWithCarType (scan : List (Int × Driver)) (carType : String) : Option (Int × Driver) :=
  scan.find? (fun e => decide (e.2.CarType = carType))

/-- The test the specification puts on a candidate entry, relative to a reference driver: same
car type, and horsepower within 50 of the reference as mathematical integers. -/
def admits (carType : String) (ref : Driver) (e : Int × Driver) : Bool :=
  decide (e.2.CarType = carType ∧ (e.2.HorsePower - ref.HorsePower).natAbs ≤ 50)

/-- The entries that are eligible with respect to a scan order: those admitted relative to the
reference entry. -/
def eligible (scan : List (Int × Driver)) (carType : String) : List (Int × Driver) :=
  match firstWithCarType scan carType with
  | none => []
  | some ref => scan.filter (admits carType ref.2)

/-- The ids of the eligible entries, in scan order. -/
def eligibleIds (scan : List (Int × Driver)) (carType : String) : List Int :=
  (eligible scan carType).map Prod.fst

/-- No subtraction of two horsepower values of the collection overflows a 64-bit `int`. -/
def SubtractionsExact (scan : List (Int × Driver)) : Prop :=
  ∀ a ∈ scan, ∀ b ∈ scan,
    minInt64 ≤ a.2.HorsePower - b.2.HorsePower ∧ a.2.HorsePower - b.2.HorsePower ≤ maxInt64

instance (scan : List (Int × Driver)) : Decidable (SubtractionsExact scan) :=
  inferInstanceAs (Decidable (∀ a ∈ scan, ∀ b ∈ scan,
    minInt64 ≤ a.2.HorsePower - b.2.HorsePower ∧ a.2.HorsePower - b.2.HorsePower ≤ maxInt64))

/-! ## The example store of the specification -/

/-- Driver 1 of the worked example. -/
def driver1 : Driver := ⟨1, "driver1Name", "GT", 500, none⟩

/-- Driver 2 of the worked example. -/
def driver2 : Driver := ⟨2, "driver2Name", "GT", 530, none⟩

/-- Driver 3 of the worked example. -/
def driver3 : Driver := ⟨3, "driver3Name", "GT", 600, none⟩

/-- Driver 4 of the worked example. -/
def driver4 : Driver := ⟨4, "driver4Name", "F1", 900, none⟩

/-- The driver store `{1:(GT,500), 2:(GT,530), 3:(GT,600), 4:(F1,900)}`. -/
def exampleDrivers : GoMap Driver := [(1, driver1), (2, driver2), (3, driver3), (4, driver4)]

/-! ## Further notions for the matcher -/

/-- The entries of the scan whose driver carries the requested car type. -/
def carrying (scan : List (Int × Driver)) (carType : String) : List (Int × Driver) :=
  scan.filter (fun e => decide (e.2.CarType = carType))

/-- Two drivers of one car type whose horsepower values lie at the two ends of the 64-bit
range. -/
def extremeDrivers : GoMap Driver :=
  [(1, ⟨1, "first", "GT", 9223372036854775807, none⟩),
   (2, ⟨2, "second", "GT", -9223372036854775808, none⟩)]

/-! ## Sequential executions of the two mutating handlers -/

/-- A request to one of the two mutating handlers, together with the choices the run-time
makes while serving it (scan order of the driver map, raw random value). -/
inductive Request where
  | createDriver (body : Except String Driver)
  | createRace (body : Except String Race) (scan : List (Int × Driver)) (rnd : Nat)

/-- The stores after serving a request. -/
def handle (st : Store) : Request → Store
  | .createDriver body => (createDriver st body).1
  | .createRace body scan rnd => (createRace st body scan rnd).1

/-- Whether a response is a success. -/
def Response.isOk {α : Type} : Response α → Bool
  | .ok _ => true
  | _ => false

/-- Whether serving the request creates a race (a successful `createRace`). -/
def createsRace (st : Store) : Request → Bool
  | .createDriver _ => false
  | .createRace body scan rnd => (createRace st body scan rnd).2.isOk

/-- The run-time choices of a request are possible in the state `st`: the scan order is an
enumeration of the driver map. -/
def Request.admissible (st : Store) : Request → Prop
  | .createDriver _ => True
  | .createRace _ scan _ => scan.Perm st.drivers

/-- The relation `Reach st n`: the stores `st` are reached from the empty stores by serving a
sequence of requests one after the other, `n` of which were successful race creations. -/
inductive Reach : Store → Nat → Prop where
  | init : Reach Store.empty 0
  | step {st : Store} {n : Nat} (req : Request) :
      Reach st n → req.admissible st →
      Reach (handle st req) (n + if createsRace st req then 1 else 0)

/-- The identifiers `1, ..., n`. -/
def idsUpTo (n : Nat) : List Int := (List.range n).map (fun (i : Nat) => (i : Int) + 1)

/-- What holds of a stored race relative to the driver store: at least two participants, a
winner, and every participant id is the key of a stored driver of the race's car type. -/
def RaceOk (drivers : GoMap Driver) (race : Race) : Prop :=
  2 ≤ race.DriverIds.length ∧ race.Winner ≠ none ∧
  ∀ id ∈ race.DriverIds, ∃ d, GoMap.get? drivers id = some d ∧ d.CarType = race.Label

/-- The invariant of sequential executions. -/
structure Inv (st : Store) (n : Nat) : Prop where
  driversWF : GoMap.WF st.drivers
  raceKeys : GoMap.keys st.races = idsUpTo n
  racesOk : ∀ e ∈ st.races, RaceOk st.drivers e.2

/-! ## Example executions -/

/-- The stores after the four drivers of the worked example have been created. -/
def exampleStore : Store := ⟨[], exampleDrivers⟩

/-- The race formed for GT on the example store when driver 1 is drawn as the winner. -/
def exampleRace : Race := ⟨"GT", some "driver1Name", [1, 2]⟩

/-- The stores after one GT race has been created on the example store. -/
def exampleStore1 : Store := ⟨[(1, exampleRace)], exampleDrivers⟩

/-- The request body `{"label": "GT"}` once decoded. -/
def gtBody : Except String Race := .ok ⟨"GT", none, []⟩

/-! ## A second scan order of the example store -/

/-- A scan order of the example store that visits driver 3 first. -/
def scanFromDriver3 : List (Int × Driver) :=
  [(3, driver3), (1, driver1), (2, driver2), (4, driver4)]

/-! # Theorems -/

/-! ## Lemmas on maps -/

theorem GoMap.get?_of_mem {V : Type} (m : GoMap V) (k : Int) (v : V)
    (hwf : GoMap.WF m) (hmem : (k, v) ∈ m) : GoMap.get? m k = some v := by
  induction m with
  | nil => simp at hmem
  | cons hd tl ih =>
    obtain ⟨k', v'⟩ := hd
    simp only [GoMap.WF, GoMap.keys, List.map_cons, List.nodup_cons] at hwf
    rcases List.mem_cons.mp hmem with h | h
    · cases h
      simp [GoMap.get?, List.lookup]
    · have hne : k ≠ k' := by
        rintro rfl
        exact hwf.1 (List.mem_map.mpr ⟨(k, v), h, rfl⟩)
      have hb : (k == k') = false := by simpa using hne
      have := ih hwf.2 h
      simp only [GoMap.get?] at this ⊢
      simp [List.lookup, hb, this]

/-! ## Lemmas on the arithmetic -/

theorem abs_sub64_le_iff (a b : Int) (h1 : a - b ≤ maxInt64) (h2 : b - a ≤ maxInt64) :
    abs (sub64 a b) ≤ 50 ↔ (b - a).natAbs ≤ 50 := by
  simp only [maxInt64] at h1 h2
  simp only [abs, sub64, neg64, wrap64]
  split <;> omega

/-! ## Lemmas on the matcher loop -/

theorem selectStep_cons (drivers : GoMap Driver) (carType : String) (first : Int)
    (tl : List Int) (e : Int × Driver)
    (h1 : (GoMap.get Driver.zero drivers first).HorsePower - e.2.HorsePower ≤ maxInt64)
    (h2 : e.2.HorsePower - (GoMap.get Driver.zero drivers first).HorsePower ≤ maxInt64) :
    selectStep drivers carType (first :: tl) e =
      if admits carType (GoMap.get Driver.zero drivers first) e then (first :: tl) ++ [e.1]
      else first :: tl := by
  simp only [selectStep, admits, abs_sub64_le_iff _ _ h1 h2]
  by_cases hc : e.2.CarType = carType
  · by_cases hh : (e.2.HorsePower - (GoMap.get Driver.zero drivers first).HorsePower).natAbs ≤ 50
    · simp only [hc, hh, if_true, and_self, decide_True]
    · simp only [hc, hh, if_true, if_false, and_false, decide_False, Bool.false_eq_true]
  · simp only [hc, if_false, false_and, decide_False, Bool.false_eq_true]

theorem foldl_selectStep_cons (drivers : GoMap Driver) (carType : String) (first : Int)
    (rest : List (Int × Driver)) :
    ∀ tl : List Int,
    (∀ e ∈ rest, (GoMap.get Driver.zero drivers first).HorsePower - e.2.HorsePower ≤ maxInt64 ∧
      e.2.HorsePower - (GoMap.get Driver.zero drivers first).HorsePower ≤ maxInt64) →
    rest.foldl (selectStep drivers carType) (first :: tl) =
      (first :: tl) ++
        (rest.filter (admits carType (GoMap.get Driver.zero drivers first))).map Prod.fst := by
  induction rest with
  | nil => intro tl _; simp
  | cons e rest ih =>
    intro tl hex
    have he := hex e (List.mem_cons_self _ _)
    have hrest := fun x hx => hex x (List.mem_cons_of_mem _ hx)
    rw [List.foldl_cons, selectStep_cons drivers carType first tl e he.1 he.2]
    by_cases ha : admits carType (GoMap.get Driver.zero drivers first) e = true
    · rw [if_pos ha, List.cons_append, ih _ hrest]
      simp [List.filter_cons, ha]
    · rw [if_neg ha, ih _ hrest]
      simp [List.filter_cons, ha]

theorem SubtractionsExact.tail {e : Int × Driver} {rest : List (Int × Driver)}
    (h : SubtractionsExact (e :: rest)) : SubtractionsExact rest :=
  fun a ha b hb => h a (List.mem_cons_of_mem _ ha) b (List.mem_cons_of_mem _ hb)

theorem eligible_cons_match (e : Int × Driver) (rest : List (Int × Driver)) (carType : String)
    (hc : e.2.CarType = carType) :
    eligible (e :: rest) carType = e :: rest.filter (admits carType e.2) := by
  have ha : admits carType e.2 e = true := by simp [admits, hc]
  simp [eligible, firstWithCarType, List.find?_cons, hc, List.filter_cons, ha]

theorem eligible_cons_skip (e : Int × Driver) (rest : List (Int × Driver)) (carType : String)
    (hc : ¬ e.2.CarType = carType) :
    eligible (e :: rest) carType = eligible rest carType := by
  have ha : ∀ r : Driver, admits carType r e = false := by intro r; simp [admits, hc]
  simp only [eligible, firstWithCarType, List.find?_cons, hc, decide_False]
  cases List.find? (fun e => decide (e.2.CarType = carType)) rest with
  | none => rfl
  | some ref => simp [List.filter_cons, ha]

/-- With exact subtractions, on a well-formed map, the loop of `createRaceWithDrivers` selects
exactly the ids of the eligible entries, in scan order. -/
theorem selectLoop_eq_eligibleIds (drivers : GoMap Driver) (carType : String)
    (hwf : GoMap.WF drivers) (scan : List (Int × Driver))
    (hsub : ∀ e ∈ scan, e ∈ drivers) (hex : SubtractionsExact scan) :
    selectLoop drivers carType scan = eligibleIds scan carType := by
  induction scan with
  | nil => rfl
  | cons e rest ih =>
    have hrest := ih (fun x hx => hsub x (List.mem_cons_of_mem _ hx)) hex.tail
    by_cases hc : e.2.CarType = carType
    · have hget : GoMap.get Driver.zero drivers e.1 = e.2 := by
        simp [GoMap.get, GoMap.get?_of_mem drivers e.1 e.2 hwf (hsub e (List.mem_cons_self _ _))]
      have hstep : selectStep drivers carType [] e = [e.1] := by simp [selectStep, hc]
      have hpairs : ∀ x ∈ rest,
          (GoMap.get Driver.zero drivers e.1).HorsePower - x.2.HorsePower ≤ maxInt64 ∧
          x.2.HorsePower - (GoMap.get Driver.zero drivers e.1).HorsePower ≤ maxInt64 := by
        intro x hx
        rw [hget]
        exact ⟨(hex e (List.mem_cons_self _ _) x (List.mem_cons_of_mem _ hx)).2,
          (hex x (List.mem_cons_of_mem _ hx) e (List.mem_cons_self _ _)).2⟩
      rw [selectLoop, List.foldl_cons, hstep,
        foldl_selectStep_cons drivers carType e.1 rest [] hpairs, hget, eligibleIds,
        eligible_cons_match e rest carType hc]
      simp
    · have hstep : selectStep drivers carType [] e = [] := by simp [selectStep, hc]
      rw [selectLoop, List.foldl_cons, hstep, eligibleIds, eligible_cons_skip e rest carType hc]
      exact hrest

/-! ## The matcher: which drivers are selected -/

/-- C1: on a well-formed driver map, for every scan order and every label, when no subtraction
of two horsepower values overflows and `createRaceWithDrivers` succeeds, there is a first entry
in scan order with the requested car type, the returned `DriverIds` are exactly the ids of the
entries with that car type whose horsepower differs by at most 50 from that of this first entry,
listed in scan order, and the returned `Label` is the requested label. -/
theorem createRaceWithDrivers_selects_eligible (drivers : GoMap Driver)
    (scan : List (Int × Driver)) (carType : String)
    (hwf : GoMap.WF drivers) (hperm : scan.Perm drivers) (hex : SubtractionsExact scan)
    (hok : (createRaceWithDrivers drivers scan carType).2 = none) :
    ∃ ref, firstWithCarType scan carType = some ref ∧
      (createRaceWithDrivers drivers scan carType).1.DriverIds =
        (scan.filter (fun e => decide (e.2.CarType = carType ∧
          (e.2.HorsePower - ref.2.HorsePower).natAbs ≤ 50))).map Prod.fst ∧
      (createRaceWithDrivers drivers scan carType).1.Label = carType := by
  have hloop := selectLoop_eq_eligibleIds drivers carType hwf scan
    (fun e he => hperm.mem_iff.mp he) hex
  simp only [createRaceWithDrivers, hloop] at hok ⊢
  by_cases hlen : (eligibleIds scan carType).length < 2
  · simp [hlen] at hok
  · simp only [hlen, if_false]
    cases hfirst : firstWithCarType scan carType with
    | none => simp [eligibleIds, eligible, hfirst] at hlen
    | some ref =>
      refine ⟨ref, rfl, ?_, trivial⟩
      simp only [eligibleIds, eligible, hfirst]
      rfl

/-- Witness for C1 on the example store, scanned in key order, for the label GT. -/
theorem createRaceWithDrivers_selects_eligible_witness :
    GoMap.WF exampleDrivers ∧ exampleDrivers.Perm exampleDrivers ∧
    SubtractionsExact exampleDrivers ∧
    (createRaceWithDrivers exampleDrivers exampleDrivers "GT").2 = none ∧
    ∃ ref, firstWithCarType exampleDrivers "GT" = some ref ∧
      (createRaceWithDrivers exampleDrivers exampleDrivers "GT").1.DriverIds =
        (exampleDrivers.filter (fun e => decide (e.2.CarType = "GT" ∧
          (e.2.HorsePower - ref.2.HorsePower).natAbs ≤ 50))).map Prod.fst ∧
      (createRaceWithDrivers exampleDrivers exampleDrivers "GT").1.Label = "GT" :=
  ⟨by decide, List.Perm.refl _, by decide, by decide,
    createRaceWithDrivers_selects_eligible exampleDrivers exampleDrivers "GT"
      (by decide) (List.Perm.refl _) (by decide) (by decide)⟩

/-! ## The matcher: when it fails -/

theorem selectStep_length_le (drivers : GoMap Driver) (carType : String) (acc : List Int)
    (e : Int × Driver) :
    (selectStep drivers carType acc e).length ≤ acc.length + (carrying [e] carType).length := by
  unfold selectStep carrying
  by_cases hc : e.2.CarType = carType
  · cases acc with
    | nil => simp [hc]
    | cons first tl =>
      simp only [hc, if_true]
      split <;> simp [List.filter_cons, hc]
  · simp [hc]

theorem foldl_selectStep_length_le (drivers : GoMap Driver) (carType : String)
    (rest : List (Int × Driver)) :
    ∀ acc : List Int, (rest.foldl (selectStep drivers carType) acc).length ≤
      acc.length + (carrying rest carType).length := by
  induction rest with
  | nil => intro acc; simp [carrying]
  | cons e rest ih =>
    intro acc
    have h1 := ih (selectStep drivers carType acc e)
    have h2 := selectStep_length_le drivers carType acc e
    have h3 : (carrying (e :: rest) carType).length =
        (carrying [e] carType).length + (carrying rest carType).length := by
      simp only [carrying, List.filter_cons, List.filter_nil]
      split
      · simp only [List.length_cons, List.length_nil]; omega
      · simp only [List.length_nil]; omega
    rw [List.foldl_cons]
    omega

/-- C2, evaluation at the failing input: the store `extremeDrivers` is reached by two
`createDriver` requests; only driver 1 is within 50 horsepower of the first GT driver in key
order (and only driver 2 in the opposite order), so fewer than 2 drivers are eligible, yet in
both scan orders `createRaceWithDrivers` returns no error and a race of both drivers, because the
64-bit subtraction wraps around to -1 or 1. -/
theorem createRaceWithDrivers_not_iff_eligible :
    Reach ⟨[], extremeDrivers⟩ 0 ∧ GoMap.WF extremeDrivers ∧
    (eligible extremeDrivers "GT").length < 2 ∧
    eligibleIds extremeDrivers "GT" = [1] ∧
    createRaceWithDrivers extremeDrivers extremeDrivers "GT" = (⟨"GT", none, [1, 2]⟩, none) ∧
    extremeDrivers.reverse.Perm extremeDrivers ∧
    eligibleIds extremeDrivers.reverse "GT" = [2] ∧
    createRaceWithDrivers extremeDrivers extremeDrivers.reverse "GT" =
      (⟨"GT", none, [2, 1]⟩, none) :=
  ⟨Reach.step (.createDriver (.ok ⟨2, "second", "GT", -9223372036854775808, none⟩))
      (Reach.step (.createDriver (.ok ⟨1, "first", "GT", 9223372036854775807, none⟩))
        Reach.init trivial) trivial,
    by decide, by decide, by decide, by decide, List.reverse_perm _, by decide, by decide⟩

/-- The part of the failure condition that holds on the code: on a well-formed driver map, for
every scan order and label, `createRaceWithDrivers` fails whenever at most one driver carries the
label, every failure carries the insufficient-drivers error together with the empty `Race`, and,
when no subtraction of two horsepower values overflows, it fails if and only if fewer than 2
drivers are eligible (requested car type and within 50 horsepower of the first such driver in
scan order). -/
theorem createRaceWithDrivers_fails_iff (drivers : GoMap Driver)
    (scan : List (Int × Driver)) (carType : String)
    (hwf : GoMap.WF drivers) (hperm : scan.Perm drivers) :
    ((carrying scan carType).length ≤ 1 →
      (createRaceWithDrivers drivers scan carType).2 = some insufficientDrivers) ∧
    ((createRaceWithDrivers drivers scan carType).2 ≠ none →
      createRaceWithDrivers drivers scan carType = (Race.zero, some insufficientDrivers)) ∧
    (SubtractionsExact scan →
      ((createRaceWithDrivers drivers scan carType).2 ≠ none ↔
        (eligible scan carType).length < 2)) := by
  refine ⟨?_, ?_, ?_⟩
  · intro hle
    have h := foldl_selectStep_length_le drivers carType scan []
    have hlt : (selectLoop drivers carType scan).length < 2 := by
      simp only [selectLoop, List.length_nil] at h ⊢
      omega
    simp [createRaceWithDrivers, hlt]
  · intro hne
    simp only [createRaceWithDrivers] at hne ⊢
    by_cases hlt : (selectLoop drivers carType scan).length < 2
    · simp [hlt]
    · simp [hlt] at hne
  · intro hex
    have hloop := selectLoop_eq_eligibleIds drivers carType hwf scan
      (fun e he => hperm.mem_iff.mp he) hex
    simp only [createRaceWithDrivers, hloop]
    by_cases hlt : (eligible scan carType).length < 2
    · simp [eligibleIds, hlt]
    · simp [eligibleIds, hlt]

/-- The failure condition on the example store, scanned in key order, for the label F1 (carried
by driver 4 only): every premise holds there and the matcher fails. -/
theorem createRaceWithDrivers_fails_iff_witness :
    GoMap.WF exampleDrivers ∧ exampleDrivers.Perm exampleDrivers ∧
    (carrying exampleDrivers "F1").length ≤ 1 ∧
    (createRaceWithDrivers exampleDrivers exampleDrivers "F1").2 ≠ none ∧
    SubtractionsExact exampleDrivers ∧
    (((carrying exampleDrivers "F1").length ≤ 1 →
      (createRaceWithDrivers exampleDrivers exampleDrivers "F1").2 = some insufficientDrivers) ∧
    ((createRaceWithDrivers exampleDrivers exampleDrivers "F1").2 ≠ none →
      createRaceWithDrivers exampleDrivers exampleDrivers "F1" =
        (Race.zero, some insufficientDrivers)) ∧
    (SubtractionsExact exampleDrivers →
      ((createRaceWithDrivers exampleDrivers exampleDrivers "F1").2 ≠ none ↔
        (eligible exampleDrivers "F1").length < 2))) :=
  ⟨by decide, List.Perm.refl _, by decide, by decide, by decide,
    createRaceWithDrivers_fails_iff exampleDrivers exampleDrivers "F1"
      (by decide) (List.Perm.refl _)⟩

/-! ## The simulator -/

theorem selectStep_mem (drivers : GoMap Driver) (carType : String) (acc : List Int)
    (e : Int × Driver) (id : Int) (h : id ∈ selectStep drivers carType acc e) :
    id ∈ acc ∨ (e.1 = id ∧ e.2.CarType = carType) := by
  unfold selectStep at h
  by_cases hc : e.2.CarType = carType
  · simp only [hc, if_true] at h
    cases acc with
    | nil =>
      simp only [List.nil_append, List.mem_singleton] at h
      exact Or.inr ⟨h.symm, hc⟩
    | cons first tl =>
      simp only at h
      split at h
      · rcases List.mem_append.mp h with h | h
        · exact Or.inl h
        · exact Or.inr ⟨(List.mem_singleton.mp h).symm, hc⟩
      · exact Or.inl h
  · simp only [hc, if_false] at h
    exact Or.inl h

theorem foldl_selectStep_mem (drivers : GoMap Driver) (carType : String)
    (rest : List (Int × Driver)) :
    ∀ (acc : List Int) (id : Int), id ∈ rest.foldl (selectStep drivers carType) acc →
      id ∈ acc ∨ ∃ e ∈ rest, e.1 = id ∧ e.2.CarType = carType := by
  induction rest with
  | nil => intro acc id h; exact Or.inl h
  | cons e rest ih =>
    intro acc id h
    rw [List.foldl_cons] at h
    rcases ih _ id h with h | ⟨x, hx, hx1, hx2⟩
    · rcases selectStep_mem drivers carType acc e id h with h | h
      · exact Or.inl h
      · exact Or.inr ⟨e, List.mem_cons_self _ _, h.1, h.2⟩
    · exact Or.inr ⟨x, List.mem_cons_of_mem _ hx, hx1, hx2⟩

/-- Every selected id is the key of a scanned entry carrying the requested car type. -/
theorem selectLoop_mem (drivers : GoMap Driver) (carType : String)
    (scan : List (Int × Driver)) (id : Int) (h : id ∈ selectLoop drivers carType scan) :
    ∃ d, (id, d) ∈ scan ∧ d.CarType = carType := by
  rcases foldl_selectStep_mem drivers carType scan [] id h with h | ⟨e, he, h1, h2⟩
  · simp at h
  · exact ⟨e.2, by rw [← h1]; exact he, h2⟩

/-- The shape of a successful result of `createRaceWithDrivers`. -/
theorem createRaceWithDrivers_ok (drivers : GoMap Driver) (scan : List (Int × Driver))
    (carType : String) (hok : (createRaceWithDrivers drivers scan carType).2 = none) :
    createRaceWithDrivers drivers scan carType =
      (⟨carType, none, selectLoop drivers carType scan⟩, none) ∧
    2 ≤ (selectLoop drivers carType scan).length := by
  simp only [createRaceWithDrivers] at hok ⊢
  by_cases hlt : (selectLoop drivers carType scan).length < 2
  · simp [hlt] at hok
  · simp only [hlt, if_false, true_and]
    omega

/-- The shape of a failed result of `createRaceWithDrivers`. -/
theorem createRaceWithDrivers_error (drivers : GoMap Driver) (scan : List (Int × Driver))
    (carType : String) (err : String)
    (herr : (createRaceWithDrivers drivers scan carType).2 = some err) :
    createRaceWithDrivers drivers scan carType = (Race.zero, some insufficientDrivers) := by
  simp only [createRaceWithDrivers] at herr ⊢
  by_cases hlt : (selectLoop drivers carType scan).length < 2
  · simp [hlt]
  · simp [hlt] at herr

/-- On a race whose ids are keys of stored drivers, `simulateRace` does not panic once the id
list is non-empty, and returns the name of the stored driver at the drawn position. -/
theorem simulateRace_eq (race : Race) (drivers : GoMap Driver) (rnd : Nat)
    (hpos : 0 < race.DriverIds.length) :
    ∃ id, race.DriverIds[rnd % race.DriverIds.length]? = some id ∧ id ∈ race.DriverIds ∧
      simulateRace race drivers rnd = some (GoMap.get Driver.zero drivers id).Name := by
  have hlt : rnd % race.DriverIds.length < race.DriverIds.length := Nat.mod_lt _ hpos
  have hne : race.DriverIds.length ≠ 0 := by omega
  refine ⟨race.DriverIds[rnd % race.DriverIds.length], ?_, List.getElem_mem _, ?_⟩
  · exact List.getElem?_eq_getElem hlt
  · simp [simulateRace, Intn, hne, List.getElem?_eq_getElem hlt]

/-- On the race that a successful `createRaceWithDrivers` returns, the draw of `simulateRace`
is in bounds, the drawn id is in `DriverIds` and is a key of the driver store, and the result is
the `Name` of the driver stored under that id. -/
theorem simulateRace_on_matched (drivers : GoMap Driver)
    (scan : List (Int × Driver)) (carType : String) (rnd : Nat)
    (hwf : GoMap.WF drivers) (hperm : scan.Perm drivers)
    (hok : (createRaceWithDrivers drivers scan carType).2 = none) :
    0 < (createRaceWithDrivers drivers scan carType).1.DriverIds.length ∧
    ∃ i id d,
      Intn rnd (createRaceWithDrivers drivers scan carType).1.DriverIds.length = some i ∧
      i < (createRaceWithDrivers drivers scan carType).1.DriverIds.length ∧
      (createRaceWithDrivers drivers scan carType).1.DriverIds[i]? = some id ∧
      id ∈ (createRaceWithDrivers drivers scan carType).1.DriverIds ∧
      id ∈ GoMap.keys drivers ∧
      GoMap.get? drivers id = some d ∧
      simulateRace (createRaceWithDrivers drivers scan carType).1 drivers rnd = some d.Name := by
  obtain ⟨hshape, hlen⟩ := createRaceWithDrivers_ok drivers scan carType hok
  rw [hshape]
  have hpos : 0 < (selectLoop drivers carType scan).length := by omega
  refine ⟨hpos, ?_⟩
  obtain ⟨id, hget, hmem, hsim⟩ :=
    simulateRace_eq ⟨carType, none, selectLoop drivers carType scan⟩ drivers rnd hpos
  obtain ⟨d, hd, _⟩ := selectLoop_mem drivers carType scan id hmem
  have hin : (id, d) ∈ drivers := hperm.mem_iff.mp hd
  have hlook := GoMap.get?_of_mem drivers id d hwf hin
  refine ⟨rnd % (selectLoop drivers carType scan).length, id, d, ?_, Nat.mod_lt _ hpos, hget,
    hmem, List.mem_map.mpr ⟨(id, d), hin, rfl⟩, hlook, ?_⟩
  · have hne : (selectLoop drivers carType scan).length ≠ 0 := by omega
    simp [Intn, hne]
  · rw [hsim]
    simp [GoMap.get, hlook]

/-! ## More lemmas on maps and on identifiers -/

theorem GoMap.get?_eq_none_iff {V : Type} (m : GoMap V) (k : Int) :
    GoMap.get? m k = none ↔ k ∉ GoMap.keys m := by
  simp only [GoMap.get?, GoMap.keys, List.lookup_eq_none_iff, List.mem_map, not_exists, not_and]
  constructor
  · intro h p hp hk
    have := h p hp
    simp [hk] at this
  · intro h p hp
    have := h p hp
    simpa [bne_iff_ne] using fun hk => this hk.symm

theorem GoMap.set_of_not_mem {V : Type} (m : GoMap V) (k : Int) (v : V)
    (h : k ∉ GoMap.keys m) : GoMap.set m k v = m ++ [(k, v)] := by
  induction m with
  | nil => rfl
  | cons hd tl ih =>
    obtain ⟨k', v'⟩ := hd
    simp only [GoMap.keys, List.map_cons, List.mem_cons, not_or] at h
    have hne : ¬ k' = k := fun hk => h.1 hk.symm
    simp only [GoMap.set, hne, if_false, List.cons_append]
    rw [ih h.2]

theorem GoMap.get?_append_of_some {V : Type} (m l : GoMap V) (k : Int) (v : V)
    (h : GoMap.get? m k = some v) : GoMap.get? (m ++ l) k = some v := by
  simp only [GoMap.get?] at h ⊢
  rw [List.lookup_append, h]
  rfl

theorem idsUpTo_succ (n : Nat) : idsUpTo (n + 1) = idsUpTo n ++ [(n : Int) + 1] := by
  simp [idsUpTo, List.range_succ]

theorem mem_idsUpTo (n : Nat) (k : Int) : k ∈ idsUpTo n ↔ 1 ≤ k ∧ k ≤ n := by
  simp only [idsUpTo, List.mem_map, List.mem_range]
  constructor
  · rintro ⟨i, hi, rfl⟩
    omega
  · rintro ⟨h1, h2⟩
    exact ⟨(k - 1).toNat, by omega, by omega⟩

theorem idsUpTo_length (n : Nat) : (idsUpTo n).length = n := by
  simp [idsUpTo]

theorem idsUpTo_nodup (n : Nat) : (idsUpTo n).Nodup := by
  induction n with
  | zero => simp [idsUpTo]
  | succ n ih =>
    rw [idsUpTo_succ]
    refine List.Nodup.append ih (List.nodup_singleton _) ?_
    intro k hk hk'
    rw [mem_idsUpTo] at hk
    rw [List.mem_singleton] at hk'
    omega

/-! ## Case analysis of the handlers -/

/-- Either `createDriver` leaves the stores alone and answers with an error, or it appends the
decoded driver under a fresh non-zero key and answers with that driver. -/
theorem createDriver_cases (st : Store) (body : Except String Driver) :
    ((createDriver st body).1 = st ∧ (createDriver st body).2.isOk = false) ∨
    ∃ driver, body = .ok driver ∧ driver.ID ≠ 0 ∧ driver.ID ∉ GoMap.keys st.drivers ∧
      createDriver st body =
        (⟨st.races, st.drivers ++ [(driver.ID, driver)]⟩, .ok driver) := by
  cases body with
  | error err => exact Or.inl ⟨rfl, rfl⟩
  | ok driver =>
    by_cases hz : driver.ID = 0
    · left; simp [createDriver, hz, Response.isOk]
    · cases hget : GoMap.get? st.drivers driver.ID with
      | some d => left; simp [createDriver, hz, hget, Response.isOk]
      | none =>
        right
        have hnot := (GoMap.get?_eq_none_iff st.drivers driver.ID).mp hget
        refine ⟨driver, rfl, hz, hnot, ?_⟩
        simp [createDriver, hz, hget, GoMap.set_of_not_mem st.drivers driver.ID driver hnot]

/-- Either `createRace` leaves the stores alone and does not answer with a race, or the matcher
succeeded, the simulator returned a winner, and the completed race is written under the key
`len(races) + 1` and sent back. -/
theorem createRace_cases (st : Store) (body : Except String Race) (scan : List (Int × Driver))
    (rnd : Nat) :
    ((createRace st body scan rnd).1 = st ∧ (createRace st body scan rnd).2.isOk = false) ∨
    ∃ decoded winner, body = .ok decoded ∧
      (createRaceWithDrivers st.drivers scan decoded.Label).2 = none ∧
      simulateRace (createRaceWithDrivers st.drivers scan decoded.Label).1 st.drivers rnd
        = some winner ∧
      createRace st body scan rnd =
        (⟨GoMap.set st.races ((GoMap.len st.races : Int) + 1)
            ⟨decoded.Label, some winner, selectLoop st.drivers decoded.Label scan⟩,
          st.drivers⟩,
         .ok ⟨decoded.Label, some winner, selectLoop st.drivers decoded.Label scan⟩) := by
  cases body with
  | error err => exact Or.inl ⟨rfl, rfl⟩
  | ok decoded =>
    cases herr : (createRaceWithDrivers st.drivers scan decoded.Label).2 with
    | some err =>
      left
      have hres := createRaceWithDrivers_error st.drivers scan decoded.Label err herr
      simp [createRace, hres, Response.isOk]
    | none =>
      obtain ⟨hshape, _⟩ := createRaceWithDrivers_ok st.drivers scan decoded.Label herr
      cases hsim : simulateRace (createRaceWithDrivers st.drivers scan decoded.Label).1
          st.drivers rnd with
      | none =>
        left
        rw [hshape] at hsim
        simp [createRace, hshape, hsim, Response.isOk]
      | some winner =>
        right
        refine ⟨decoded, winner, rfl, herr, hsim, ?_⟩
        rw [hshape] at hsim
        simp [createRace, hshape, hsim]

theorem GoMap.get?_set_self {V : Type} (m : GoMap V) (k : Int) (v : V) :
    GoMap.get? (GoMap.set m k v) k = some v := by
  induction m with
  | nil => simp [GoMap.set, GoMap.get?, List.lookup]
  | cons hd tl ih =>
    obtain ⟨k', v'⟩ := hd
    by_cases hk : k' = k
    · simp [GoMap.set, hk, GoMap.get?, List.lookup]
    · have hb : (k == k') = false := by simpa using fun h : k = k' => hk h.symm
      simp only [GoMap.get?] at ih
      simp [GoMap.set, hk, GoMap.get?, List.lookup, hb, ih]

/-! ## The winner of a formed race -/

/-- C3: for every store with a well-formed driver map, every scan order, every decoded request
whose label makes `createRaceWithDrivers` succeed, and every raw random value: the drawn index is
in bounds (`DriverIds` is non-empty, so neither the draw nor the slice access panics), the drawn
id is in `DriverIds` and is a key of the driver store, `simulateRace` returns the `Name` of the
driver stored under that id, and `createRace` forms, stores under `len(races) + 1` and sends back
the race with the requested label, the matched `DriverIds` and that name as `Winner`; so the
winner of the formed race is the name of a stored driver whose id is in its `DriverIds`. -/
theorem simulateRace_winner_is_participant (st : Store)
    (scan : List (Int × Driver)) (decoded : Race) (rnd : Nat)
    (hwf : GoMap.WF st.drivers) (hperm : scan.Perm st.drivers)
    (hok : (createRaceWithDrivers st.drivers scan decoded.Label).2 = none) :
    0 < (createRaceWithDrivers st.drivers scan decoded.Label).1.DriverIds.length ∧
    ∃ i id d,
      Intn rnd (createRaceWithDrivers st.drivers scan decoded.Label).1.DriverIds.length
        = some i ∧
      i < (createRaceWithDrivers st.drivers scan decoded.Label).1.DriverIds.length ∧
      (createRaceWithDrivers st.drivers scan decoded.Label).1.DriverIds[i]? = some id ∧
      id ∈ (createRaceWithDrivers st.drivers scan decoded.Label).1.DriverIds ∧
      id ∈ GoMap.keys st.drivers ∧
      GoMap.get? st.drivers id = some d ∧
      simulateRace (createRaceWithDrivers st.drivers scan decoded.Label).1 st.drivers rnd
        = some d.Name ∧
      ∃ race : Race,
        (createRace st (.ok decoded) scan rnd).2 = .ok race ∧
        GoMap.get? (createRace st (.ok decoded) scan rnd).1.races
          ((GoMap.len st.races : Int) + 1) = some race ∧
        (createRace st (.ok decoded) scan rnd).1.drivers = st.drivers ∧
        race.Label = decoded.Label ∧
        race.DriverIds = (createRaceWithDrivers st.drivers scan decoded.Label).1.DriverIds ∧
        race.Winner = some d.Name ∧
        id ∈ race.DriverIds := by
  obtain ⟨hpos, i, id, d, hdraw, hi, hget, hmem, hkey, hlook, hsim⟩ :=
    simulateRace_on_matched st.drivers scan decoded.Label rnd hwf hperm hok
  refine ⟨hpos, i, id, d, hdraw, hi, hget, hmem, hkey, hlook, hsim, ?_⟩
  obtain ⟨hshape, _⟩ := createRaceWithDrivers_ok st.drivers scan decoded.Label hok
  rw [hshape] at hsim hmem
  have heq : createRace st (.ok decoded) scan rnd =
      (⟨GoMap.set st.races ((GoMap.len st.races : Int) + 1)
          ⟨decoded.Label, some d.Name, selectLoop st.drivers decoded.Label scan⟩,
        st.drivers⟩,
       .ok ⟨decoded.Label, some d.Name, selectLoop st.drivers decoded.Label scan⟩) := by
    simp [createRace, hshape, hsim]
  rw [heq, hshape]
  exact ⟨⟨decoded.Label, some d.Name, selectLoop st.drivers decoded.Label scan⟩, rfl,
    GoMap.get?_set_self _ _ _, rfl, rfl, rfl, rfl, hmem⟩

/-- Witness for C3 on the example store, scanned in key order, for the request label GT and the
raw random value 7: driver 2 is drawn and `createRace` answers with driver 2 as the winner. -/
theorem simulateRace_winner_is_participant_witness :
    GoMap.WF exampleStore.drivers ∧ exampleDrivers.Perm exampleStore.drivers ∧
    (createRaceWithDrivers exampleStore.drivers exampleDrivers "GT").2 = none ∧
    (createRace exampleStore gtBody exampleDrivers 7).2 =
      .ok ⟨"GT", some "driver2Name", [1, 2]⟩ ∧
    0 < (createRaceWithDrivers exampleStore.drivers exampleDrivers "GT").1.DriverIds.length ∧
    ∃ i id d,
      Intn 7 (createRaceWithDrivers exampleStore.drivers exampleDrivers "GT").1.DriverIds.length
        = some i ∧
      i < (createRaceWithDrivers exampleStore.drivers exampleDrivers "GT").1.DriverIds.length ∧
      (createRaceWithDrivers exampleStore.drivers exampleDrivers "GT").1.DriverIds[i]?
        = some id ∧
      id ∈ (createRaceWithDrivers exampleStore.drivers exampleDrivers "GT").1.DriverIds ∧
      id ∈ GoMap.keys exampleStore.drivers ∧
      GoMap.get? exampleStore.drivers id = some d ∧
      simulateRace (createRaceWithDrivers exampleStore.drivers exampleDrivers "GT").1
        exampleStore.drivers 7 = some d.Name ∧
      ∃ race : Race,
        (createRace exampleStore (.ok ⟨"GT", none, []⟩) exampleDrivers 7).2 = .ok race ∧
        GoMap.get? (createRace exampleStore (.ok ⟨"GT", none, []⟩) exampleDrivers 7).1.races
          ((GoMap.len exampleStore.races : Int) + 1) = some race ∧
        (createRace exampleStore (.ok ⟨"GT", none, []⟩) exampleDrivers 7).1.drivers
          = exampleStore.drivers ∧
        race.Label = "GT" ∧
        race.DriverIds =
          (createRaceWithDrivers exampleStore.drivers exampleDrivers "GT").1.DriverIds ∧
        race.Winner = some d.Name ∧
        id ∈ race.DriverIds :=
  ⟨by decide, List.Perm.refl _, by decide, by decide,
    simulateRace_winner_is_participant exampleStore exampleDrivers ⟨"GT", none, []⟩ 7
      (by decide) (List.Perm.refl _) (by decide)⟩

/-! ## The invariant is kept by every request -/

theorem Inv.init : Inv Store.empty 0 :=
  ⟨by simp [Store.empty, GoMap.WF, GoMap.keys], by simp [Store.empty, GoMap.keys, idsUpTo],
    by simp [Store.empty]⟩

theorem Inv.len_races {st : Store} {n : Nat} (h : Inv st n) : GoMap.len st.races = n := by
  have := congrArg List.length h.raceKeys
  simpa [GoMap.keys, GoMap.len, idsUpTo_length] using this

theorem Inv.next_id_fresh {st : Store} {n : Nat} (h : Inv st n) :
    ((GoMap.len st.races : Int) + 1) ∉ GoMap.keys st.races := by
  rw [h.raceKeys, h.len_races, mem_idsUpTo]
  omega

theorem RaceOk.append {drivers : GoMap Driver} {race : Race} (h : RaceOk drivers race)
    (l : GoMap Driver) : RaceOk (drivers ++ l) race :=
  ⟨h.1, h.2.1, fun id hid => by
    obtain ⟨d, hd, hc⟩ := h.2.2 id hid
    exact ⟨d, GoMap.get?_append_of_some drivers l id d hd, hc⟩⟩

theorem Inv.driver_step {st : Store} {n : Nat} (h : Inv st n) (body : Except String Driver) :
    Inv (createDriver st body).1 n := by
  rcases createDriver_cases st body with ⟨hst, _⟩ | ⟨driver, _, _, hfresh, heq⟩
  · rw [hst]; exact h
  · rw [heq]
    refine ⟨?_, h.raceKeys, fun e he => (h.racesOk e he).append _⟩
    have hwf := h.driversWF
    simp only [GoMap.WF, GoMap.keys, List.map_append, List.map_cons, List.map_nil] at hwf ⊢
    refine List.Nodup.append hwf (List.nodup_singleton _) ?_
    intro k hk hk'
    rw [List.mem_singleton] at hk'
    exact hfresh (hk' ▸ hk)

/-- The race that a successful matcher run and simulator run produce satisfies `RaceOk`. -/
theorem raceOk_of_selectLoop (drivers : GoMap Driver) (scan : List (Int × Driver))
    (carType winner : String) (hwf : GoMap.WF drivers) (hperm : scan.Perm drivers)
    (hok : (createRaceWithDrivers drivers scan carType).2 = none) :
    RaceOk drivers ⟨carType, some winner, selectLoop drivers carType scan⟩ := by
  refine ⟨(createRaceWithDrivers_ok drivers scan carType hok).2, by simp, ?_⟩
  intro id hid
  obtain ⟨d, hd, hc⟩ := selectLoop_mem drivers carType scan id hid
  exact ⟨d, GoMap.get?_of_mem drivers id d hwf (hperm.mem_iff.mp hd), hc⟩

/-- In a state satisfying the invariant, `createRace` either changes nothing and does not answer
with a race, or appends the completed race under the key `n + 1` and answers with it. -/
theorem Inv.race_appended {st : Store} {n : Nat} (h : Inv st n)
    (body : Except String Race) (scan : List (Int × Driver)) (rnd : Nat) :
    ((createRace st body scan rnd).1 = st ∧ (createRace st body scan rnd).2.isOk = false) ∨
    ∃ decoded winner, body = .ok decoded ∧
      (createRaceWithDrivers st.drivers scan decoded.Label).2 = none ∧
      simulateRace (createRaceWithDrivers st.drivers scan decoded.Label).1 st.drivers rnd
        = some winner ∧
      createRace st body scan rnd =
        (⟨st.races ++ [((n : Int) + 1,
            ⟨decoded.Label, some winner, selectLoop st.drivers decoded.Label scan⟩)],
          st.drivers⟩,
         .ok ⟨decoded.Label, some winner, selectLoop st.drivers decoded.Label scan⟩) := by
  rcases createRace_cases st body scan rnd with
    hfail | ⟨decoded, winner, hb, hok, hsim, heq⟩
  · exact Or.inl hfail
  · refine Or.inr ⟨decoded, winner, hb, hok, hsim, ?_⟩
    rw [heq, GoMap.set_of_not_mem _ _ _ h.next_id_fresh, h.len_races]

theorem Inv.race_step {st : Store} {n : Nat} (h : Inv st n)
    (body : Except String Race) (scan : List (Int × Driver)) (rnd : Nat)
    (hperm : scan.Perm st.drivers) :
    Inv (createRace st body scan rnd).1
      (n + if (createRace st body scan rnd).2.isOk then 1 else 0) := by
  rcases h.race_appended body scan rnd with ⟨hst, hno⟩ | ⟨decoded, winner, _, hok, _, heq⟩
  · rw [hst, hno]; exact h
  · rw [heq]
    simp only [Response.isOk, if_true]
    refine ⟨h.driversWF, ?_, ?_⟩
    · simp only [GoMap.keys, List.map_append, List.map_cons, List.map_nil]
      rw [idsUpTo_succ, ← h.raceKeys]
      rfl
    · intro e he
      rcases List.mem_append.mp he with he | he
      · exact h.racesOk e he
      · rw [List.mem_singleton] at he
        rw [he]
        exact raceOk_of_selectLoop st.drivers scan decoded.Label winner h.driversWF hperm hok

/-- Every reachable state satisfies the invariant. -/
theorem Reach.inv {st : Store} {n : Nat} (h : Reach st n) : Inv st n := by
  induction h with
  | init => exact Inv.init
  | step req _ hadm ih =>
    cases req with
    | createDriver body =>
      simpa [handle, createsRace] using ih.driver_step body
    | createRace body scan rnd =>
      simpa [handle, createsRace] using ih.race_step body scan rnd hadm

/-! ## The example stores are reachable -/

theorem reach_exampleStore : Reach exampleStore 0 :=
  Reach.step (.createDriver (.ok driver4))
    (Reach.step (.createDriver (.ok driver3))
      (Reach.step (.createDriver (.ok driver2))
        (Reach.step (.createDriver (.ok driver1)) Reach.init trivial) trivial) trivial) trivial

theorem reach_exampleStore1 : Reach exampleStore1 1 :=
  Reach.step (.createRace gtBody exampleDrivers 0) reach_exampleStore (List.Perm.refl _)

theorem GoMap.get?_append_fresh {V : Type} (m : GoMap V) (k : Int) (v : V)
    (h : k ∉ GoMap.keys m) : GoMap.get? (m ++ [(k, v)]) k = some v := by
  have hnone := (GoMap.get?_eq_none_iff m k).mpr h
  simp only [GoMap.get?] at hnone ⊢
  rw [List.lookup_append, hnone]
  simp [List.lookup]

theorem GoMap.get?_append_other {V : Type} (m : GoMap V) (k k' : Int) (v : V)
    (h : k' ≠ k) : GoMap.get? (m ++ [(k, v)]) k' = GoMap.get? m k' := by
  have hb : (k' == k) = false := by simpa using h
  simp only [GoMap.get?]
  rw [List.lookup_append]
  cases List.lookup k' m <;> simp [List.lookup, hb]

/-! ## Race identifiers -/

/-- C4: in a state reached from the empty stores by any sequential mix of `createDriver` and
`createRace` requests, `n` of which were successful race creations, the race store holds each
key at most once, holds `n` races, and its keys are exactly `1, ..., n`; the next successful
`createRace` (the `n + 1`-st) adds its race under the key `n + 1` behind the stored races, so it
overwrites none of them. -/
theorem race_ids_sequential (st : Store) (n : Nat) (h : Reach st n) :
    GoMap.WF st.races ∧ GoMap.len st.races = n ∧
    (∀ k : Int, k ∈ GoMap.keys st.races ↔ 1 ≤ k ∧ k ≤ n) ∧
    ∀ (body : Except String Race) (scan : List (Int × Driver)) (rnd : Nat) (race : Race),
      (createRace st body scan rnd).2 = .ok race →
      (createRace st body scan rnd).1.races = st.races ++ [((n : Int) + 1, race)] ∧
      GoMap.get? (createRace st body scan rnd).1.races ((n : Int) + 1) = some race := by
  have hinv := h.inv
  refine ⟨?_, hinv.len_races, ?_, ?_⟩
  · simp only [GoMap.WF, hinv.raceKeys]
    exact idsUpTo_nodup n
  · intro k
    rw [hinv.raceKeys, mem_idsUpTo]
  · intro body scan rnd race hresp
    rcases hinv.race_appended body scan rnd with ⟨_, hno⟩ | ⟨decoded, winner, _, _, _, heq⟩
    · rw [hresp] at hno
      simp [Response.isOk] at hno
    · have hfresh := hinv.next_id_fresh
      rw [hinv.len_races] at hfresh
      rw [heq] at hresp ⊢
      simp only [Response.ok.injEq] at hresp
      subst hresp
      exact ⟨rfl, GoMap.get?_append_fresh st.races _ _ hfresh⟩

/-- Witness for C4: the example store after one race creation is reachable with one successful
race creation, and a second GT request there succeeds. -/
theorem race_ids_sequential_witness :
    Reach exampleStore1 1 ∧
    (createRace exampleStore1 gtBody exampleDrivers 0).2 = .ok exampleRace ∧
    (GoMap.WF exampleStore1.races ∧ GoMap.len exampleStore1.races = 1 ∧
    (∀ k : Int, k ∈ GoMap.keys exampleStore1.races ↔ 1 ≤ k ∧ k ≤ (1 : Nat)) ∧
    ∀ (body : Except String Race) (scan : List (Int × Driver)) (rnd : Nat) (race : Race),
      (createRace exampleStore1 body scan rnd).2 = .ok race →
      (createRace exampleStore1 body scan rnd).1.races =
        exampleStore1.races ++ [(((1 : Nat) : Int) + 1, race)] ∧
      GoMap.get? (createRace exampleStore1 body scan rnd).1.races (((1 : Nat) : Int) + 1)
        = some race) :=
  ⟨reach_exampleStore1, by decide, race_ids_sequential exampleStore1 1 reach_exampleStore1⟩

/-! ## Atomicity of race creation -/

/-- C5: in every reachable state, for every request body, scan order and random value: when
`createRace` does not answer with a race, both stores are unchanged; when it answers with a race,
the driver store is unchanged and the race store is the previous one followed by exactly one new
entry, so the count grows by 1 and every previously stored race is still stored under its id. -/
theorem createRace_all_or_nothing (st : Store) (n : Nat) (h : Reach st n)
    (body : Except String Race) (scan : List (Int × Driver)) (rnd : Nat) :
    ((createRace st body scan rnd).2.isOk = false → (createRace st body scan rnd).1 = st) ∧
    ∀ race, (createRace st body scan rnd).2 = .ok race →
      (createRace st body scan rnd).1.drivers = st.drivers ∧
      (createRace st body scan rnd).1.races =
        st.races ++ [((GoMap.len st.races : Int) + 1, race)] ∧
      GoMap.len (createRace st body scan rnd).1.races = GoMap.len st.races + 1 ∧
      ∀ k r, GoMap.get? st.races k = some r →
        GoMap.get? (createRace st body scan rnd).1.races k = some r := by
  have hinv := h.inv
  rcases hinv.race_appended body scan rnd with ⟨hst, hno⟩ | ⟨decoded, winner, _, _, _, heq⟩
  · refine ⟨fun _ => hst, fun race hresp => ?_⟩
    rw [hresp] at hno
    simp [Response.isOk] at hno
  · refine ⟨fun hno => ?_, fun race hresp => ?_⟩
    · rw [heq] at hno
      simp [Response.isOk] at hno
    · rw [heq] at hresp ⊢
      simp only [Response.ok.injEq] at hresp
      subst hresp
      refine ⟨rfl, by rw [hinv.len_races], by simp [GoMap.len], fun k r hk => ?_⟩
      exact GoMap.get?_append_of_some st.races _ k r hk

/-- Witness for C5: on the example store after one race, a GT request succeeds and an F1
request fails. -/
theorem createRace_all_or_nothing_witness :
    Reach exampleStore1 1 ∧
    (createRace exampleStore1 gtBody exampleDrivers 0).2 = .ok exampleRace ∧
    (createRace exampleStore1 (.ok ⟨"F1", none, []⟩) exampleDrivers 0).2.isOk = false ∧
    (((createRace exampleStore1 gtBody exampleDrivers 0).2.isOk = false →
      (createRace exampleStore1 gtBody exampleDrivers 0).1 = exampleStore1) ∧
    ∀ race, (createRace exampleStore1 gtBody exampleDrivers 0).2 = .ok race →
      (createRace exampleStore1 gtBody exampleDrivers 0).1.drivers = exampleStore1.drivers ∧
      (createRace exampleStore1 gtBody exampleDrivers 0).1.races =
        exampleStore1.races ++ [((GoMap.len exampleStore1.races : Int) + 1, race)] ∧
      GoMap.len (createRace exampleStore1 gtBody exampleDrivers 0).1.races =
        GoMap.len exampleStore1.races + 1 ∧
      ∀ k r, GoMap.get? exampleStore1.races k = some r →
        GoMap.get? (createRace exampleStore1 gtBody exampleDrivers 0).1.races k = some r) :=
  ⟨reach_exampleStore1, by decide, by decide,
    createRace_all_or_nothing exampleStore1 1 reach_exampleStore1 gtBody exampleDrivers 0⟩

/-! ## Stored races -/

/-- C7: in every reachable state, every race in the race store has at least 2 entries in
`DriverIds`, has a winner, and every id in its `DriverIds` is a key of the driver store whose
driver has `CarType` equal to the race's `Label`. -/
theorem stored_races_well_formed (st : Store) (n : Nat) (h : Reach st n) :
    ∀ id race, (id, race) ∈ st.races →
      2 ≤ race.DriverIds.length ∧ race.Winner ≠ none ∧
      ∀ k ∈ race.DriverIds, k ∈ GoMap.keys st.drivers ∧
        ∃ d, GoMap.get? st.drivers k = some d ∧ d.CarType = race.Label := by
  intro id race hmem
  obtain ⟨hlen, hwin, hids⟩ := h.inv.racesOk (id, race) hmem
  refine ⟨hlen, hwin, fun k hk => ?_⟩
  obtain ⟨d, hd, hc⟩ := hids k hk
  refine ⟨?_, d, hd, hc⟩
  by_contra hnot
  rw [(GoMap.get?_eq_none_iff st.drivers k).mpr hnot] at hd
  cases hd

/-- Witness for C7: the example store after one race creation is reachable and holds a race. -/
theorem stored_races_well_formed_witness :
    Reach exampleStore1 1 ∧ (1, exampleRace) ∈ exampleStore1.races ∧
    ∀ id race, (id, race) ∈ exampleStore1.races →
      2 ≤ race.DriverIds.length ∧ race.Winner ≠ none ∧
      ∀ k ∈ race.DriverIds, k ∈ GoMap.keys exampleStore1.drivers ∧
        ∃ d, GoMap.get? exampleStore1.drivers k = some d ∧ d.CarType = race.Label :=
  ⟨reach_exampleStore1, by decide, stored_races_well_formed exampleStore1 1 reach_exampleStore1⟩

/-! ## The value sent back by `createRace` -/

/-- C9, counterexample: no function reads the assigned id off the `Race` value that `createRace`
sends back.  On the example store the first and the second GT request answer with the same
`Race` value, stored under the ids 1 and 2. -/
theorem createRace_response_carries_no_id :
    (createRace exampleStore gtBody exampleDrivers 0).2 = .ok exampleRace ∧
    (createRace exampleStore1 gtBody exampleDrivers 0).2 = .ok exampleRace ∧
    GoMap.get? (createRace exampleStore gtBody exampleDrivers 0).1.races 1 = some exampleRace ∧
    GoMap.get? (createRace exampleStore1 gtBody exampleDrivers 0).1.races 2 = some exampleRace ∧
    ¬ ∃ idOf : Race → Int,
      ∀ (st : Store) (n : Nat) (body : Except String Race) (scan : List (Int × Driver))
        (rnd : Nat) (race : Race),
        Reach st n → scan.Perm st.drivers → (createRace st body scan rnd).2 = .ok race →
        idOf race = (GoMap.len st.races : Int) + 1 := by
  refine ⟨by decide, by decide, by decide, by decide, ?_⟩
  rintro ⟨idOf, hid⟩
  have h0 := hid exampleStore 0 gtBody exampleDrivers 0 exampleRace reach_exampleStore
    (List.Perm.refl _) (by decide)
  have h1 := hid exampleStore1 1 gtBody exampleDrivers 0 exampleRace reach_exampleStore1
    (List.Perm.refl _) (by decide)
  rw [h0] at h1
  revert h1
  decide

/-- C9, amended: on every successful race creation in a reachable state, the `Race` value that
`createRace` sends back is the value stored under the new id (the race count before insertion
plus 1) and has a winner; the id itself is not part of the value. -/
theorem createRace_response_is_stored_race (st : Store) (n : Nat) (h : Reach st n)
    (body : Except String Race) (scan : List (Int × Driver)) (rnd : Nat) (race : Race)
    (hresp : (createRace st body scan rnd).2 = .ok race) :
    GoMap.get? (createRace st body scan rnd).1.races ((GoMap.len st.races : Int) + 1)
      = some race ∧
    race.Winner ≠ none := by
  have hinv := h.inv
  rcases hinv.race_appended body scan rnd with ⟨_, hno⟩ | ⟨decoded, winner, _, _, _, heq⟩
  · rw [hresp] at hno
    simp [Response.isOk] at hno
  · have hfresh := hinv.next_id_fresh
    rw [heq] at hresp ⊢
    simp only [Response.ok.injEq] at hresp
    subst hresp
    rw [hinv.len_races] at hfresh ⊢
    exact ⟨GoMap.get?_append_fresh st.races _ _ hfresh, by simp⟩

/-- Witness for the amended C9: the second GT request on the example store. -/
theorem createRace_response_is_stored_race_witness :
    Reach exampleStore1 1 ∧
    (createRace exampleStore1 gtBody exampleDrivers 0).2 = .ok exampleRace ∧
    GoMap.get? (createRace exampleStore1 gtBody exampleDrivers 0).1.races
      ((GoMap.len exampleStore1.races : Int) + 1) = some exampleRace ∧
    exampleRace.Winner ≠ none :=
  ⟨reach_exampleStore1, by decide,
    createRace_response_is_stored_race exampleStore1 1 reach_exampleStore1 gtBody
      exampleDrivers 0 exampleRace (by decide)⟩

/-! ## Driver creation -/

/-- C6: for every driver store and every decoded driver `d`, `createDriver` answers 400 and
changes nothing when `d.ID` is 0, answers 409 and changes nothing when `d.ID` is non-zero and
already a key of the driver store, and otherwise answers with `d` itself, stores `d` under
`d.ID`, and leaves the race store and every other key of the driver store as they were. -/
theorem createDriver_contract (st : Store) (d : Driver) :
    (d.ID = 0 → createDriver st (.ok d) = (st, .error "ID is required" 400)) ∧
    (d.ID ≠ 0 → d.ID ∈ GoMap.keys st.drivers →
      createDriver st (.ok d) = (st, .error "Driver already exists" 409)) ∧
    (d.ID ≠ 0 → d.ID ∉ GoMap.keys st.drivers →
      (createDriver st (.ok d)).2 = .ok d ∧
      (createDriver st (.ok d)).1.races = st.races ∧
      GoMap.get? (createDriver st (.ok d)).1.drivers d.ID = some d ∧
      GoMap.len (createDriver st (.ok d)).1.drivers = GoMap.len st.drivers + 1 ∧
      ∀ k, k ≠ d.ID →
        GoMap.get? (createDriver st (.ok d)).1.drivers k = GoMap.get? st.drivers k) := by
  refine ⟨?_, ?_, ?_⟩
  · intro hz
    simp [createDriver, hz]
  · intro hz hmem
    cases hget : GoMap.get? st.drivers d.ID with
    | none => exact absurd hmem ((GoMap.get?_eq_none_iff st.drivers d.ID).mp hget)
    | some x => simp [createDriver, hz, hget]
  · intro hz hnot
    have hget := (GoMap.get?_eq_none_iff st.drivers d.ID).mpr hnot
    have hset := GoMap.set_of_not_mem st.drivers d.ID d hnot
    simp only [createDriver, hz, hget, hset, if_false]
    refine ⟨trivial, trivial, GoMap.get?_append_fresh st.drivers d.ID d hnot,
      by simp [GoMap.len], ?_⟩
    intro k hk
    exact GoMap.get?_append_other st.drivers d.ID k d hk

/-- Witness for C6 on the example store: id 0 is rejected, the stored id 2 is rejected under
another name, and a driver with the new id 5 is stored. -/
theorem createDriver_contract_witness :
    createDriver exampleStore (.ok ⟨0, "zero", "GT", 510, none⟩) =
      (exampleStore, .error "ID is required" 400) ∧
    createDriver exampleStore (.ok ⟨2, "other", "F1", 10, none⟩) =
      (exampleStore, .error "Driver already exists" 409) ∧
    GoMap.get? (createDriver exampleStore (.ok ⟨5, "five", "GT", 510, none⟩)).1.drivers 5 =
      some ⟨5, "five", "GT", 510, none⟩ :=
  ⟨(createDriver_contract exampleStore ⟨0, "zero", "GT", 510, none⟩).1 (by decide),
   (createDriver_contract exampleStore ⟨2, "other", "F1", 10, none⟩).2.1 (by decide) (by decide),
   ((createDriver_contract exampleStore ⟨5, "five", "GT", 510, none⟩).2.2
      (by decide) (by decide)).2.2.1⟩

/-! ## The worked example under every scan order -/

/-- C8, counterexample: `scanFromDriver3` enumerates the example store, and with it
`createRaceWithDrivers` for GT fails: driver 3 becomes the reference, drivers 1 and 2 are more
than 50 horsepower away from it, and only driver 3 is selected. -/
theorem example_scan_from_driver3_fails :
    scanFromDriver3.Perm exampleDrivers ∧
    selectLoop exampleDrivers "GT" scanFromDriver3 = [3] ∧
    createRaceWithDrivers exampleDrivers scanFromDriver3 "GT" =
      (Race.zero, some insufficientDrivers) :=
  ⟨by decide, by decide, by decide⟩

theorem exampleDrivers_reference (scan : List (Int × Driver))
    (hperm : scan.Perm exampleDrivers) :
    firstWithCarType scan "GT" = some (1, driver1) ∨
    firstWithCarType scan "GT" = some (2, driver2) ∨
    firstWithCarType scan "GT" = some (3, driver3) := by
  cases hfirst : firstWithCarType scan "GT" with
  | none =>
    have hnone := List.find?_eq_none.mp hfirst (1, driver1)
      (hperm.mem_iff.mpr (by decide))
    exact absurd hnone (by decide)
  | some ref =>
    have hmem : ref ∈ exampleDrivers := hperm.mem_iff.mp (List.mem_of_find?_eq_some hfirst)
    have hcar := List.find?_some hfirst
    simp only [exampleDrivers, List.mem_cons, List.mem_singleton, List.not_mem_nil,
      or_false] at hmem
    rcases hmem with h | h | h | h
    · simp [h]
    · simp [h]
    · simp [h]
    · rw [h] at hcar
      exact absurd hcar (by decide)

/-- C8, amended: for the store `exampleDrivers` and every scan order of it, the first GT driver
visited is driver 1, 2 or 3; when it is driver 1 or driver 2, `createRaceWithDrivers` for GT
succeeds and the matched ids are 1 and 2, each once (in scan order); when it is driver 3, it
fails with the insufficient-drivers error. -/
theorem example_matches_drivers_1_2 (scan : List (Int × Driver))
    (hperm : scan.Perm exampleDrivers) :
    (firstWithCarType scan "GT" ≠ some (3, driver3) →
      (createRaceWithDrivers exampleDrivers scan "GT").2 = none ∧
      (createRaceWithDrivers exampleDrivers scan "GT").1.DriverIds.Perm [1, 2]) ∧
    (firstWithCarType scan "GT" = some (3, driver3) →
      createRaceWithDrivers exampleDrivers scan "GT" =
        (Race.zero, some insufficientDrivers)) := by
  have hex : SubtractionsExact scan := fun a ha b hb =>
    (by decide : SubtractionsExact exampleDrivers) a (hperm.mem_iff.mp ha) b (hperm.mem_iff.mp hb)
  have hloop := selectLoop_eq_eligibleIds exampleDrivers "GT" (by decide) scan
    (fun e he => hperm.mem_iff.mp he) hex
  have hfilter : ∀ ref : Driver,
      ((scan.filter (admits "GT" ref)).map Prod.fst).Perm
        ((exampleDrivers.filter (admits "GT" ref)).map Prod.fst) :=
    fun ref => (hperm.filter _).map _
  have h12 : ∀ ref : Driver,
      (exampleDrivers.filter (admits "GT" ref)).map Prod.fst = [1, 2] →
      firstWithCarType scan "GT" = some (ref.ID, ref) →
      (createRaceWithDrivers exampleDrivers scan "GT").2 = none ∧
      (createRaceWithDrivers exampleDrivers scan "GT").1.DriverIds.Perm [1, 2] := by
    intro ref hval hfirst
    have hp : (eligibleIds scan "GT").Perm [1, 2] := by
      have := hfilter ref
      rw [hval] at this
      simpa [eligibleIds, eligible, hfirst] using this
    have hlen : (eligibleIds scan "GT").length = 2 := hp.length_eq
    have hnot : ¬ (eligibleIds scan "GT").length < 2 := by omega
    simp only [createRaceWithDrivers, hloop, hnot, if_false]
    exact ⟨trivial, hp⟩
  refine ⟨fun hne => ?_, fun h3 => ?_⟩
  · rcases exampleDrivers_reference scan hperm with h | h | h
    · exact h12 driver1 (by decide) h
    · exact h12 driver2 (by decide) h
    · exact absurd h hne
  · have hp : (eligibleIds scan "GT").Perm [3] := by
      have := hfilter driver3
      rw [(by decide : (exampleDrivers.filter (admits "GT" driver3)).map Prod.fst = [3])] at this
      simpa [eligibleIds, eligible, h3] using this
    have hlen : (eligibleIds scan "GT").length = 1 := hp.length_eq
    simp [createRaceWithDrivers, hloop, hlen]

/-- Witness for the amended C8: the scan in key order, whose first GT driver is driver 1. -/
theorem example_matches_drivers_1_2_witness :
    exampleDrivers.Perm exampleDrivers ∧
    firstWithCarType exampleDrivers "GT" ≠ some (3, driver3) ∧
    (createRaceWithDrivers exampleDrivers exampleDrivers "GT").2 = none ∧
    (createRaceWithDrivers exampleDrivers exampleDrivers "GT").1.DriverIds.Perm [1, 2] :=
  ⟨List.Perm.refl _, by decide,
    (example_matches_drivers_1_2 exampleDrivers (List.Perm.refl _)).1 (by decide)⟩

/-! ## The similarity test on 64-bit integers -/

/-- C10, evaluation at the failing inputs: for the horsepower values `maxInt64` and `minInt64`
the test `abs(a - b) <= 50` holds although the values are more than 50 apart, because the
subtraction wraps around to -1; and `abs` returns a negative number on `minInt64`, which is the
value of `minInt64 - 0`, so the test also holds for the pair `minInt64`, 0. -/
theorem abs_similarity_wraps_around :
    sub64 maxInt64 minInt64 = -1 ∧
    abs (sub64 maxInt64 minInt64) ≤ 50 ∧
    ¬ (maxInt64 - minInt64).natAbs ≤ 50 ∧
    abs minInt64 = minInt64 ∧ abs minInt64 < 0 ∧
    abs (sub64 minInt64 0) ≤ 50 ∧
    ¬ (minInt64 - 0).natAbs ≤ 50 :=
  ⟨by decide, by decide, by decide, by decide, by decide, by decide, by decide⟩

end RaceCarGO
